import Mathlib

/-!
Shallow embedding of the BarberManager scheduling core
(`src/services/appointment_service.py`, `src/services/settings_service.py`,
`src/services/barber_service.py`, `src/repositories/appointment_repository.py`,
`src/repositories/base_repository.py`, `src/models/base.py`), together with
proofs about the spec's claims.

Modelling conventions:
* Python `datetime` values are integer minutes since an arbitrary epoch; a
  `date` is an integer day number, so `datetime.combine(d, time(h, m))` is
  `d * 1440 + h * 60 + m`.  The repository's `datetime.max.time()` bound at
  minute granularity is `d * 1440 + 1439`.
* Python `float` prices are modelled as rationals.
* SQLAlchemy rows are records in in-memory lists held by a `Db` record;
  autoincrement primary keys are modelled by a `next_appointment_id` counter.
* `filter(...).first()` is `List.find?`; mutating the row returned by
  `filter(...).first()` is "update the first matching element".
* SQL `ORDER BY start_time` is modelled by a stable insertion sort.
* Python truthiness tests on optional integer arguments (`if exclude_id:`,
  `if barber_id:`) are modelled exactly: both `None` and `0` are falsy.
* Python's `str()` on an `int` and `int()` on a decimal string are modelled
  by `pyStrInt` and `pyIntParse?` below.
* Calls into the Google Calendar client are external I/O; their results are
  passed in as explicit oracle arguments and never affect control flow that
  the claims are about (sync is best-effort in the source).
-/

namespace BarberManager

/-! ### Model of Python's `str`/`int` conversions on integers -/

/-- Decimal digit character for `d < 10`. -/
def digitChar (d : Nat) : Char := Char.ofNat (48 + d)

/-- Big-endian decimal digits of `n` (empty for `0`), with `fuel` bounding the
recursion so that the definition is structural and kernel-reducible. -/
def natDigitsAux : Nat → Nat → List Char
  | _, 0 => []
  | 0, _ + 1 => []
  | fuel + 1, n + 1 => natDigitsAux fuel ((n + 1) / 10) ++ [digitChar ((n + 1) % 10)]

/-- Model of Python `str()` on a non-negative integer. -/
def pyStrNat (n : Nat) : String := if n = 0 then "0" else ⟨natDigitsAux n n⟩

/-- Model of Python `str()` on an integer. -/
def pyStrInt : Int → String
  | Int.ofNat n => pyStrNat n
  | Int.negSucc n => "-" ++ pyStrNat (n + 1)

/-- Numeric value of a decimal digit character, if it is one. -/
def digitVal? (c : Char) : Option Nat :=
  if 48 ≤ c.toNat ∧ c.toNat ≤ 57 then some (c.toNat - 48) else none

/-- Left-to-right accumulation of decimal digits; `none` on a non-digit. -/
def parseDigits : List Char → Nat → Option Nat
  | [], acc => some acc
  | c :: cs, acc =>
    match digitVal? c with
    | some d => parseDigits cs (acc * 10 + d)
    | none => none

/-- Helper for `pyIntParse?`: parse a character list as a decimal integer. -/
def pyIntParseList : List Char → Option Int
  | [] => none
  | c :: cs =>
    if c = '-' then
      if cs = [] then none else (parseDigits cs 0).map (fun n => -(n : Int))
    else
      (parseDigits (c :: cs) 0).map (fun n => (n : Int))

/-- Model of Python `int()` on the decimal strings this application stores
(an optional leading minus sign followed by digits); `none` models the
`ValueError`/`TypeError` raised on anything else. -/
def pyIntParse? (s : String) : Option Int := pyIntParseList s.data

/-! ### Data model (`src/models/base.py`)

`start_time`/`end_time` are minutes since the epoch; `price` is a rational. -/

/-- Row of the `appointments` table. -/
structure Appointment where
  id : Nat
  client_id : Nat
  service_id : Nat
  barber_id : Nat
  start_time : Int
  end_time : Int
  status : String
  google_event_id : Option String
deriving Repr, DecidableEq

/-- Row of the `services` table. -/
structure Service where
  id : Nat
  name : String
  duration : Int
  price : Rat
  is_active : Bool
deriving Repr, DecidableEq

/-- Row of the `clients` table. -/
structure Client where
  id : Nat
  name : String
  email : String
  phone : Option String
  notes : Option String
deriving Repr, DecidableEq

/-- Row of the `barbers` table. -/
structure Barber where
  id : Nat
  name : String
  color : String
  is_active : Bool
deriving Repr, DecidableEq

/-- The database: one list per table plus the autoincrement counter for
`appointments.id`.  `settings` rows are `(key, value)` pairs. -/
structure Db where
  appointments : List Appointment
  services : List Service
  clients : List Client
  barbers : List Barber
  settings : List (String × String)
  next_appointment_id : Nat
deriving Repr, DecidableEq

/-- Update the first element satisfying `p` (the row that
`filter(...).first()` returns and the Python code mutates). -/
def updateFirstBy (p : α → Bool) (f : α → α) : List α → List α
  | [] => []
  | a :: as => if p a then f a :: as else a :: updateFirstBy p f as

/-! ### Settings service (`src/services/settings_service.py`) -/

/-- `DEFAULT_SETTINGS` from `settings_service.py`. -/
def DEFAULT_SETTINGS : List (String × String) :=
  [("business_hours_start", "12"), ("business_hours_end", "20"), ("slot_duration", "15")]

/-- `SettingsService.get_setting(db, key, default)`:
the stored value if the key exists, else `DEFAULT_SETTINGS.get(key, default)`. -/
def get_setting (db : Db) (key : String) (default : Option String) : Option String :=
  match db.settings.find? (fun kv => kv.1 == key) with
  | some kv => some kv.2
  | none =>
    match DEFAULT_SETTINGS.find? (fun kv => kv.1 == key) with
    | some kv => some kv.2
    | none => default

/-- `SettingsService.set_setting(db, key, value)`: overwrite the first row
with that key, or append a new row. -/
def set_setting (db : Db) (key value : String) : Db :=
  if db.settings.any (fun kv => kv.1 == key) then
    { db with settings := updateFirstBy (fun kv => kv.1 == key) (fun _ => (key, value)) db.settings }
  else
    { db with settings := db.settings ++ [(key, value)] }

/-- `SettingsService.get_business_hours(db)`: read both hour settings and
convert with `int()`; `none` models the exception paths. -/
def get_business_hours (db : Db) : Option (Int × Int) := do
  let start ← get_setting db "business_hours_start" none
  let stop ← get_setting db "business_hours_end" none
  let si ← pyIntParse? start
  let ei ← pyIntParse? stop
  return (si, ei)

/-- `SettingsService.set_business_hours(db, start_hour, end_hour)`. -/
def set_business_hours (db : Db) (start_hour end_hour : Int) : Db :=
  set_setting (set_setting db "business_hours_start" (pyStrInt start_hour))
    "business_hours_end" (pyStrInt end_hour)

/-- `AppointmentService._is_sync_enabled(db)`. -/
def is_sync_enabled (db : Db) : Bool :=
  ((get_setting db "google_calendar_enabled" (some "false")).getD "").toLower == "true"

/-! ### Model of SQL `ORDER BY` (stable insertion sort) -/

/-- Insert `a` into `l` before the first element `b` with `le a b = false`
is violated, i.e. standard stable insertion. -/
def insortBy (le : α → α → Bool) (a : α) : List α → List α
  | [] => [a]
  | b :: bs => if le a b then a :: b :: bs else b :: insortBy le a bs

/-- Stable insertion sort: the model of `ORDER BY`. -/
def sortBy (le : α → α → Bool) : List α → List α
  | [] => []
  | a :: as => insortBy le a (sortBy le as)

/-! ### Appointment repository (`src/repositories/appointment_repository.py`,
`src/repositories/base_repository.py`) -/

/-- `datetime.combine(target_date, time(hour, minute))` in minutes. -/
def combineTime (d h : Int) (m : Nat) : Int := d * 1440 + h * 60 + (m : Int)

/-- `AppointmentRepository.get_appointments_by_date`: non-cancelled
appointments whose `start_time` lies on `target_date`, optionally narrowed to
one barber (Python truthiness: a `barber_id` of `None` or `0` means no
filter), ordered by `start_time`. -/
def get_appointments_by_date (db : Db) (target_date : Int) (barber_id : Option Nat) :
    List Appointment :=
  let start_of_day := target_date * 1440
  let end_of_day := target_date * 1440 + 1439
  let q := db.appointments.filter (fun a =>
    decide (start_of_day ≤ a.start_time) && decide (a.start_time ≤ end_of_day) &&
    (a.status != "cancelled"))
  let q2 := match barber_id with
    | some b => if b ≠ 0 then q.filter (fun a => a.barber_id == b) else q
    | none => q
  sortBy (fun a b => decide (a.start_time ≤ b.start_time)) q2

/-- `AppointmentRepository.find_overlapping`: non-cancelled appointments of
`barber_id` intersecting the half-open window, minus the excluded id (Python
truthiness: an `exclude_id` of `None` or `0` applies no exclusion). -/
def find_overlapping (db : Db) (start_time end_time : Int) (barber_id : Nat)
    (exclude_id : Option Nat) : List Appointment :=
  let q := db.appointments.filter (fun a =>
    (a.status != "cancelled") && (a.barber_id == barber_id) &&
    decide (a.start_time < end_time) && decide (a.end_time > start_time))
  match exclude_id with
  | some e => if e ≠ 0 then q.filter (fun a => a.id != e) else q
  | none => q

/-- `BaseRepository.delete`: remove the row with the given primary key. -/
def repo_delete (db : Db) (appointment_id : Nat) : Bool × Db :=
  match db.appointments.find? (fun a => a.id == appointment_id) with
  | some _ =>
    (true, { db with appointments := db.appointments.eraseP (fun a => a.id == appointment_id) })
  | none => (false, db)

/-- `app.service.price`: the joined service row's price.  The row exists by
foreign-key integrity; a dangling reference is given price `0`. -/
def servicePrice (db : Db) (a : Appointment) : Rat :=
  ((db.services.find? (fun s => s.id == a.service_id)).map Service.price).getD 0

/-- Result of `AppointmentRepository.get_stats_by_period`. -/
structure PeriodStats where
  total_count : Nat
  total_income : Rat
  appointments : List Appointment
deriving Repr, DecidableEq

/-- `AppointmentRepository.get_stats_by_period`. -/
def get_stats_by_period (db : Db) (start_date end_date : Int) : PeriodStats :=
  let appointments := db.appointments.filter (fun a =>
    decide (start_date * 1440 ≤ a.start_time) &&
    decide (a.start_time ≤ end_date * 1440 + 1439) && (a.status != "cancelled"))
  { total_count := appointments.length
    total_income := (appointments.map (servicePrice db)).sum
    appointments := appointments }

/-- Result of `AppointmentRepository.get_stats_by_status`. -/
structure StatusStats where
  confirmed_count : Nat
  confirmed_income : Rat
  pending_count : Nat
  pending_income : Rat
  cancelled_count : Nat
  cancelled_income : Rat
  total_count : Nat
  total_income : Rat
deriving Repr, DecidableEq

/-- `AppointmentRepository.get_stats_by_status`: the `cancelled` income is the
literal `0.0` and the `total` income sums confirmed appointments only. -/
def get_stats_by_status (db : Db) (start_date end_date : Int) : StatusStats :=
  let appointments := db.appointments.filter (fun a =>
    decide (start_date * 1440 ≤ a.start_time) &&
    decide (a.start_time ≤ end_date * 1440 + 1439))
  let confirmed := appointments.filter (fun a => a.status == "confirmed")
  let pending := appointments.filter (fun a => a.status == "pending")
  let cancelled := appointments.filter (fun a => a.status == "cancelled")
  { confirmed_count := confirmed.length
    confirmed_income := (confirmed.map (servicePrice db)).sum
    pending_count := pending.length
    pending_income := (pending.map (servicePrice db)).sum
    cancelled_count := cancelled.length
    cancelled_income := 0
    total_count := appointments.length
    total_income := (confirmed.map (servicePrice db)).sum }

/-- The status filter of `get_barber_performance` (Python truthiness: `None`
and `""` both mean "no explicit filter", which excludes cancelled rows). -/
def performanceStatusFilter (status : Option String) (a : Appointment) : Bool :=
  match status with
  | some st => if st ≠ "" then a.status == st else a.status != "cancelled"
  | none => a.status != "cancelled"

/-- `AppointmentRepository.get_barber_performance`: inner join of barbers,
appointments in the date range passing the status filter, and their services;
grouped per barber (barbers with no rows produce no group). -/
def get_barber_performance (db : Db) (start_date end_date : Int) (status : Option String) :
    List (String × Nat × Rat) :=
  db.barbers.filterMap (fun b =>
    let rows := db.appointments.filter (fun a =>
      (a.barber_id == b.id) && (db.services.any (fun s => s.id == a.service_id)) &&
      decide (start_date * 1440 ≤ a.start_time) &&
      decide (a.start_time ≤ end_date * 1440 + 1439) &&
      performanceStatusFilter status a)
    if rows.isEmpty then none
    else some (b.name, rows.length, (rows.map (servicePrice db)).sum))

/-! ### Appointment service (`src/services/appointment_service.py`) -/

/-- `AppointmentService.DEFAULT_START_HOUR`. -/
def DEFAULT_START_HOUR : Int := 12

/-- `AppointmentService.DEFAULT_END_HOUR`. -/
def DEFAULT_END_HOUR : Int := 20

/-- `AppointmentService.SLOT_INTERVAL_MINUTES` (hard-coded; the
`slot_duration` setting is never read by the service). -/
def SLOT_INTERVAL_MINUTES : Nat := 15

/-- Python `range(s, e)` over integers. -/
def intRangeAux (s : Int) : Nat → List Int
  | 0 => []
  | n + 1 => s :: intRangeAux (s + 1) n

/-- Python `range(s, e)` over integers. -/
def intRange (s e : Int) : List Int := intRangeAux s (e - s).toNat

/-- Python `range(0, 60, SLOT_INTERVAL_MINUTES)`. -/
def minuteRange : List Nat :=
  (List.range (60 / SLOT_INTERVAL_MINUTES)).map (fun i => i * SLOT_INTERVAL_MINUTES)

/-- The slot loop body of `get_all_time_slots` for hours `[s, e)`. -/
def slotsFor (start_hour end_hour : Int) : List (Int × Nat) :=
  (intRange start_hour end_hour).flatMap (fun h => minuteRange.map (fun m => (h, m)))

/-- `AppointmentService.get_all_time_slots(db)`: the `(hour, minute)` grid for
the configured (or default) business hours; `none` models the exception when
a stored hour setting is not an integer literal. -/
def get_all_time_slots (db : Option Db) : Option (List (Int × Nat)) :=
  match db with
  | some d => (get_business_hours d).map (fun se => slotsFor se.1 se.2)
  | none => some (slotsFor DEFAULT_START_HOUR DEFAULT_END_HOUR)

/-- `AppointmentService.get_appointments_for_date` (delegates to the
repository). -/
def get_appointments_for_date (db : Db) (target_date : Int) (barber_id : Option Nat) :
    List Appointment :=
  get_appointments_by_date db target_date barber_id

/-- `datetime.min.time().replace(hour=h, ...)` raises unless `0 ≤ h ≤ 23`. -/
def validHour (h : Int) : Bool := decide (0 ≤ h) && decide (h ≤ 23)

/-- `AppointmentService.get_available_slots`: every slot with its availability
flag; `none` models the exceptions (unparseable hour settings, or an
out-of-range hour reaching `time.replace`). -/
def get_available_slots (db : Db) (target_date : Int) (service_duration : Int)
    (barber_id : Nat) : Option (List (Int × Nat × Bool)) :=
  let existing := get_appointments_for_date db target_date (some barber_id)
  match get_all_time_slots (some db), get_business_hours db with
  | some all_slots, some se =>
    if all_slots.all (fun hm => validHour hm.1 && validHour se.2) then
      some (all_slots.map (fun hm =>
        let slot_start := combineTime target_date hm.1 hm.2
        let slot_end := slot_start + service_duration
        let business_end := combineTime target_date se.2 0
        if slot_end > business_end then (hm.1, hm.2, false)
        else (hm.1, hm.2, existing.all (fun a =>
          !(decide (a.start_time < slot_end) && decide (a.end_time > slot_start))))))
    else none
  | _, _ => none

/-- `AppointmentService.check_slot_availability`. -/
def check_slot_availability (db : Db) (start_time end_time : Int) (barber_id : Nat)
    (exclude_appointment_id : Option Nat) : Bool :=
  (find_overlapping db start_time end_time barber_id exclude_appointment_id).length == 0

/-- `AppointmentService.create_appointment`.  `gcal_event` is the oracle for
the external `google_calendar_service.create_event` call (best-effort sync);
`sync_to_google` is the keyword argument of the same name. -/
def create_appointment (db : Db) (client_id service_id barber_id : Nat) (start_time : Int)
    (sync_to_google : Bool) (gcal_event : Option String) :
    (Option Appointment × Option String) × Db :=
  match db.services.find? (fun s => s.id == service_id) with
  | none => ((none, some "Servicio no encontrado"), db)
  | some service =>
    match db.clients.find? (fun c => c.id == client_id) with
    | none => ((none, some "Cliente no encontrado"), db)
    | some _client =>
      let end_time := start_time + service.duration
      if check_slot_availability db start_time end_time barber_id none then
        let base : Appointment :=
          { id := db.next_appointment_id, client_id := client_id, service_id := service_id,
            barber_id := barber_id, start_time := start_time, end_time := end_time,
            status := "pending", google_event_id := none }
        let appointment :=
          if sync_to_google && is_sync_enabled db then
            match gcal_event with
            | some gid => { base with google_event_id := some gid }
            | none => base
          else base
        ((some appointment, none),
         { db with appointments := db.appointments ++ [appointment],
                   next_appointment_id := db.next_appointment_id + 1 })
      else
        ((none, some "El horario seleccionado no está disponible para este barbero"), db)

/-- `AppointmentService.update_appointment_status`. -/
def update_appointment_status (db : Db) (appointment_id : Nat) (new_status : String) :
    (Option Appointment × Option String) × Db :=
  if new_status ∈ ["pending", "confirmed", "cancelled"] then
    match db.appointments.find? (fun a => a.id == appointment_id) with
    | none => ((none, some "Turno no encontrado"), db)
    | some appointment =>
      ((some { appointment with status := new_status }, none),
       { db with appointments := (updateFirstBy (fun a => a.id == appointment_id)
           (fun a => { a with status := new_status }) db.appointments) })
  else
    ((none, some "Estado inválido. Use: pending, confirmed, cancelled"), db)

/-- `AppointmentService.get_appointment_by_id`. -/
def get_appointment_by_id (db : Db) (appointment_id : Nat) : Option Appointment :=
  db.appointments.find? (fun a => a.id == appointment_id)

/-- `AppointmentService.delete_appointment` (the remote calendar delete is
best-effort external I/O and does not touch the database). -/
def delete_appointment (db : Db) (appointment_id : Nat) : (Bool × Option String) × Db :=
  match get_appointment_by_id db appointment_id with
  | none => ((false, some "Turno no encontrado"), db)
  | some _appointment =>
    let res := repo_delete db appointment_id
    ((res.1, if res.1 then none else some "Error al eliminar el turno"), res.2)

/-- One item of the daily schedule: the serialized appointment dict (with its
`client`/`service` relationship lookups) or a free slot. -/
inductive ScheduleItem where
  | appointment (time : Int) (appt : Appointment) (client : Option Client)
      (service : Option Service)
  | free (time : Int)
deriving Repr, DecidableEq

/-- The appointment dict built in `get_daily_schedule`. -/
def emitAppointment (db : Db) (slot_time : Int) (a : Appointment) : ScheduleItem :=
  ScheduleItem.appointment slot_time a
    (db.clients.find? (fun c => c.id == a.client_id))
    (db.services.find? (fun s => s.id == a.service_id))

/-- The "slot is within an existing appointment" test of `get_daily_schedule`. -/
def isOccupied (appointments : List Appointment) (slot_time : Int) : Bool :=
  appointments.any (fun a =>
    decide (a.start_time ≤ slot_time) && decide (slot_time < a.end_time))

/-- The slot loop of `get_daily_schedule`: `pending` is the suffix of
`appointments` starting at `appt_index`. -/
def scheduleWalk (db : Db) (appointments : List Appointment) :
    List Int → List Appointment → List ScheduleItem
  | [], _ => []
  | t :: rest, a :: ps =>
    if a.start_time = t then
      emitAppointment db t a :: scheduleWalk db appointments rest ps
    else if isOccupied appointments t then scheduleWalk db appointments rest (a :: ps)
    else ScheduleItem.free t :: scheduleWalk db appointments rest (a :: ps)
  | t :: rest, [] =>
    if isOccupied appointments t then scheduleWalk db appointments rest []
    else ScheduleItem.free t :: scheduleWalk db appointments rest []

/-- `AppointmentService.get_daily_schedule`. -/
def get_daily_schedule (db : Db) (target_date : Int) (barber_id : Option Nat) :
    Option (List ScheduleItem) :=
  let appointments := get_appointments_for_date db target_date barber_id
  match get_all_time_slots (some db) with
  | none => none
  | some all_slots =>
    if all_slots.all (fun hm => validHour hm.1) then
      some (scheduleWalk db appointments
        (all_slots.map (fun hm => combineTime target_date hm.1 hm.2)) appointments)
    else none

/-! ### Barber service (`src/services/barber_service.py`) -/

/-- `BarberService.get_barber_by_id`. -/
def get_barber_by_id (db : Db) (barber_id : Nat) : Option Barber :=
  db.barbers.find? (fun b => b.id == barber_id)

/-- `BarberService.can_deactivate`.  `today` is `date.today()`;
`func.date(start_time)` is floor division by minutes-per-day.  Note the
future-appointment filter matches the literal statuses `"pendiente"` and
`"confirmado"`. -/
def can_deactivate (db : Db) (barber_id : Nat) (today : Int) : Bool × Option String :=
  let active_count := (db.barbers.filter (fun b => b.is_active)).length
  if active_count ≤ 1 then (false, some "Debe haber al menos un barbero activo")
  else
    let future_appointments := (db.appointments.filter (fun a =>
      (a.barber_id == barber_id) && decide (today ≤ Int.fdiv a.start_time 1440) &&
      (a.status == "pendiente" || a.status == "confirmado"))).length
    if 0 < future_appointments then
      (false, some ("El barbero tiene " ++ toString future_appointments ++
        " cita(s) futura(s) asignada(s)"))
    else (true, none)

/-- `BarberService.toggle_active`. -/
def toggle_active (db : Db) (barber_id : Nat) (today : Int) :
    (Option Barber × Option String) × Db :=
  match get_barber_by_id db barber_id with
  | none => ((none, some "Barbero no encontrado"), db)
  | some barber =>
    let flipped := { barber with is_active := !barber.is_active }
    let db2 := { db with barbers := (updateFirstBy (fun b => b.id == barber_id)
      (fun b => { b with is_active := !b.is_active }) db.barbers) }
    if barber.is_active then
      match can_deactivate db barber_id today with
      | (false, error) => ((none, error), db)
      | (true, _) => ((some flipped, none), db2)
    else ((some flipped, none), db2)

/-! ### Time-slot generation lemmas and claim C4 -/

/-- Sort key of a `(hour, minute)` slot. -/
def slotKey (p : Int × Nat) : Int := p.1 * 60 + (p.2 : Int)

/-- The minute grid of one hour. -/
def hourBlock (h : Int) : List (Int × Nat) := minuteRange.map (fun m => (h, m))

/-- `slotsFor` seen through the recursive hour range. -/
def slotsForAux (s : Int) (n : Nat) : List (Int × Nat) :=
  (intRangeAux s n).flatMap hourBlock

/-- The store whose settings configure hours 12–20 with a 30-minute
`slot_duration`. -/
def dbSlot30 : Db :=
  { appointments := [], services := [], clients := [], barbers := [],
    settings := [("business_hours_start", "12"), ("business_hours_end", "20"),
                 ("slot_duration", "30")],
    next_appointment_id := 1 }

/-- A store whose only appointment has id 0 (possible in the table, never
produced by the autoincrement key). -/
def dbId0 : Db :=
  { appointments := [⟨0, 1, 1, 1, 0, 30, "pending", none⟩],
    services := [], clients := [], barbers := [], settings := [],
    next_appointment_id := 1 }

/-- First appointment of the C1 witness store: barber 1, 12:00–12:30. -/
def apptW1 : Appointment := ⟨1, 1, 1, 1, 720, 750, "pending", none⟩

/-- Second appointment of the C1 witness store: barber 1, 13:00–13:30. -/
def apptW2 : Appointment := ⟨2, 1, 1, 1, 780, 810, "pending", none⟩

/-- The C1 witness store. -/
def dbW1 : Db :=
  { appointments := [apptW1, apptW2], services := [], clients := [], barbers := [],
    settings := [], next_appointment_id := 3 }

/-- Service row used by the C2 witness: id 1, 30 minutes, price 100. -/
def svcW : Service := ⟨1, "Corte", 30, 100, true⟩

/-- Client row used by the C2 witness. -/
def cliW : Client := ⟨1, "Ana", "ana@mail.com", none, none⟩

/-- The C2 witness store: one service, one client, no appointments. -/
def dbW2 : Db :=
  { appointments := [], services := [svcW], clients := [cliW], barbers := [],
    settings := [], next_appointment_id := 1 }

/-! ### Claim C6: status transitions -/

/-- A store holding a single confirmed appointment (id 1). -/
def dbConfirmed : Db :=
  { appointments := [⟨1, 1, 1, 1, 720, 750, "confirmed", none⟩],
    services := [], clients := [], barbers := [], settings := [],
    next_appointment_id := 2 }

/-! ### Claim C5: barber deactivation guards -/

/-- Store exhibiting the C5 bug: two active barbers; barber 1 has a future
(`day 7`) appointment with status `"pending"`. -/
def dbBarberBug : Db :=
  { appointments := [⟨1, 1, 1, 1, 7 * 1440 + 720, 7 * 1440 + 750, "pending", none⟩],
    services := [], clients := [],
    barbers := [⟨1, "Alex", "#2196F3", true⟩, ⟨2, "Bruno", "#2196F3", true⟩],
    settings := [], next_appointment_id := 2 }

/-! ### Claim C8: cancelled appointments and income -/

/-- Delete every cancelled appointment from the store. -/
def removeCancelled (db : Db) : Db :=
  { db with appointments := db.appointments.filter (fun a => a.status != "cancelled") }

/-- Store for the C8 counterexample and witness: one barber, one priced
service, one cancelled appointment inside the period. -/
def dbCancelledPerf : Db :=
  { appointments := [⟨1, 1, 1, 1, 720, 750, "cancelled", none⟩],
    services := [⟨1, "Corte", 30, 100, true⟩], clients := [],
    barbers := [⟨1, "Bruno", "#2196F3", true⟩], settings := [],
    next_appointment_id := 2 }

/-- The C3 witness store: hours 10–12, one barber, no appointments. -/
def dbC3 : Db :=
  { appointments := [], services := [], clients := [],
    barbers := [⟨1, "Alex", "#2196F3", true⟩],
    settings := [("business_hours_start", "10"), ("business_hours_end", "12")],
    next_appointment_id := 1 }

/-! ### Claim C7: the daily schedule -/

/-- The claim's per-slot description of the daily schedule: an appointment
item when some fetched appointment starts at the slot, no item when the slot
lies strictly inside an appointment's span without being its start, and a
free item otherwise. -/
def dailyItemSpec (db : Db) (appointments : List Appointment) (t : Int) :
    Option ScheduleItem :=
  match appointments.find? (fun a => a.start_time == t) with
  | some a => some (emitAppointment db t a)
  | none => if isOccupied appointments t then none else some (ScheduleItem.free t)

/-- Store refuting C7 by misalignment: appointment 1 starts at 12:07 (not a
slot boundary) and appointment 2 starts at the 13:00 slot. -/
def dbMisaligned : Db :=
  { appointments := [⟨1, 1, 1, 1, 727, 757, "pending", none⟩,
                     ⟨2, 1, 1, 1, 780, 810, "pending", none⟩],
    services := [], clients := [], barbers := [],
    settings := [("business_hours_start", "12"), ("business_hours_end", "14")],
    next_appointment_id := 3 }

/-- Store refuting C7 by duplicate start times: barbers 1 and 2 both start at
12:00 and barber 3 starts at the 12:15 slot (no barber filter). -/
def dbDupStart : Db :=
  { appointments := [⟨1, 1, 1, 1, 720, 735, "pending", none⟩,
                     ⟨2, 1, 1, 2, 720, 735, "pending", none⟩,
                     ⟨3, 1, 1, 3, 735, 750, "pending", none⟩],
    services := [], clients := [], barbers := [],
    settings := [("business_hours_start", "12"), ("business_hours_end", "14")],
    next_appointment_id := 4 }

/-- The C7 witness store: hours 12–14, one slot-aligned appointment
12:30–13:00 for barber 1. -/
def dbSchedW : Db :=
  { appointments := [⟨1, 1, 1, 1, 750, 780, "pending", none⟩],
    services := [], clients := [],
    barbers := [⟨1, "Alex", "#2196F3", true⟩],
    settings := [("business_hours_start", "12"), ("business_hours_end", "14")],
    next_appointment_id := 2 }

theorem parseDigits_append (l₁ l₂ : List Char) (acc : Nat) :
    parseDigits (l₁ ++ l₂) acc =
      (parseDigits l₁ acc).bind (fun m => parseDigits l₂ m) := by
  induction l₁ generalizing acc with
  | nil => simp [parseDigits]
  | cons c cs ih =>
    simp only [List.cons_append, parseDigits]
    cases hc : digitVal? c with
    | none => simp
    | some d => simpa using ih (acc * 10 + d)

theorem digitVal?_digitChar {d : Nat} (hd : d < 10) :
    digitVal? (digitChar d) = some d := by
  interval_cases d <;> decide

theorem mem_natDigitsAux {fuel n : Nat} {c : Char} (hc : c ∈ natDigitsAux fuel n) :
    ∃ d, d < 10 ∧ c = digitChar d := by
  induction fuel generalizing n with
  | zero => cases n <;> simp [natDigitsAux] at hc
  | succ fuel ih =>
    cases n with
    | zero => simp [natDigitsAux] at hc
    | succ m =>
      simp only [natDigitsAux, List.mem_append, List.mem_singleton] at hc
      rcases hc with hc | hc
      · exact ih hc
      · exact ⟨(m + 1) % 10, Nat.mod_lt _ (by norm_num), hc⟩

theorem parseDigits_natDigitsAux {fuel : Nat} :
    ∀ {n : Nat}, n ≤ fuel → ∀ acc,
      parseDigits (natDigitsAux fuel n) acc =
        some (acc * 10 ^ (natDigitsAux fuel n).length + n) := by
  induction fuel with
  | zero =>
    intro n hn acc
    interval_cases n
    simp [natDigitsAux, parseDigits]
  | succ fuel ih =>
    intro n hn acc
    cases n with
    | zero => simp [natDigitsAux, parseDigits]
    | succ m =>
      have hdiv : (m + 1) / 10 ≤ fuel := by
        have h1 : (m + 1) / 10 < m + 1 := Nat.div_lt_self (Nat.succ_pos m) (by norm_num)
        exact Nat.lt_succ_iff.mp (lt_of_lt_of_le h1 hn)
      have hmod : (m + 1) % 10 < 10 := Nat.mod_lt _ (by norm_num)
      simp only [natDigitsAux, parseDigits_append, ih hdiv acc,
        parseDigits, digitVal?_digitChar hmod, List.length_append, List.length_singleton,
        Option.some_bind]
      congr 1
      rw [pow_succ, ← Nat.mul_assoc]
      generalize acc * 10 ^ (natDigitsAux fuel ((m + 1) / 10)).length = A
      omega

theorem natDigitsAux_ne_nil {fuel n : Nat} (hn : 0 < n) (hfuel : n ≤ fuel) :
    natDigitsAux fuel n ≠ [] := by
  cases fuel with
  | zero => omega
  | succ fuel =>
    cases n with
    | zero => omega
    | succ m => simp [natDigitsAux]

/-- Round trip: Python `int(str(k)) == k`. -/
theorem pyIntParse?_pyStrInt (k : Int) : pyIntParse? (pyStrInt k) = some k := by
  have digits_parse : ∀ n : Nat, 0 < n →
      (pyStrNat n).data ≠ [] ∧
      (∀ c ∈ (pyStrNat n).data, c ≠ '-') ∧
      parseDigits (pyStrNat n).data 0 = some n := by
    intro n hn
    have hne : natDigitsAux n n ≠ [] := natDigitsAux_ne_nil hn le_rfl
    have hdata : (pyStrNat n).data = natDigitsAux n n := by
      simp [pyStrNat, Nat.pos_iff_ne_zero.mp hn]
    refine ⟨by simpa [hdata] using hne, ?_, ?_⟩
    · intro c hc
      rw [hdata] at hc
      obtain ⟨d, hd, rfl⟩ := mem_natDigitsAux hc
      intro h
      have : digitVal? '-' = some d := by rw [← h]; exact digitVal?_digitChar hd
      simp [digitVal?] at this
    · rw [hdata, parseDigits_natDigitsAux le_rfl]
      simp
  cases k with
  | ofNat n =>
    cases Nat.eq_zero_or_pos n with
    | inl h => subst h; decide
    | inr h =>
      obtain ⟨hne, hnotminus, hparse⟩ := digits_parse n h
      simp only [pyStrInt, pyIntParse?]
      cases hd : (pyStrNat n).data with
      | nil => exact absurd hd hne
      | cons c cs =>
        have hcm : c ≠ '-' := hnotminus c (by simp [hd])
        rw [hd] at hparse
        simp [pyIntParseList, hcm, hparse]
  | negSucc n =>
    obtain ⟨hne, _, hparse⟩ := digits_parse (n + 1) (Nat.succ_pos n)
    have hminus : ("-" ++ pyStrNat (n + 1)).data = '-' :: (pyStrNat (n + 1)).data := by
      simp [String.data_append]
    simp only [pyStrInt, pyIntParse?, hminus]
    simp [pyIntParseList, hne, hparse, Int.negSucc_eq]

theorem mem_insortBy (le : α → α → Bool) (a x : α) (l : List α) :
    x ∈ insortBy le a l ↔ x = a ∨ x ∈ l := by
  induction l with
  | nil => simp [insortBy]
  | cons b bs ih =>
    simp only [insortBy]
    by_cases h : le a b = true
    · simp [h]
    · simp only [Bool.not_eq_true] at h
      simp [h, ih]
      tauto

theorem mem_sortBy (le : α → α → Bool) (x : α) (l : List α) :
    x ∈ sortBy le l ↔ x ∈ l := by
  induction l with
  | nil => simp [sortBy]
  | cons a as ih => simp [sortBy, mem_insortBy, ih]

theorem pairwise_insortBy (le : α → α → Bool)
    (htotal : ∀ a b, le a b = true ∨ le b a = true)
    (htrans : ∀ a b c, le a b = true → le b c = true → le a c = true)
    (a : α) (l : List α)
    (hl : l.Pairwise (fun x y => le x y = true)) :
    (insortBy le a l).Pairwise (fun x y => le x y = true) := by
  induction l with
  | nil => simp [insortBy]
  | cons b bs ih =>
    rcases hl with _ | ⟨hb, hbs⟩
    simp only [insortBy]
    by_cases h : le a b = true
    · rw [if_pos h]
      refine List.Pairwise.cons ?_ (List.Pairwise.cons hb hbs)
      intro x hx
      rcases List.mem_cons.mp hx with rfl | hx
      · exact h
      · exact htrans a b x h (hb x hx)
    · rw [if_neg h]
      refine List.Pairwise.cons ?_ (ih hbs)
      intro x hx
      rcases (mem_insortBy le a x bs).mp hx with hxa | hx2
      · subst hxa
        rcases htotal x b with hab | hba
        · exact absurd hab h
        · exact hba
      · exact hb x hx2

theorem pairwise_sortBy (le : α → α → Bool)
    (htotal : ∀ a b, le a b = true ∨ le b a = true)
    (htrans : ∀ a b c, le a b = true → le b c = true → le a c = true)
    (l : List α) :
    (sortBy le l).Pairwise (fun x y => le x y = true) := by
  induction l with
  | nil => simp [sortBy]
  | cons a as ih => exact pairwise_insortBy le htotal htrans a (sortBy le as) ih

/-! ### Settings lemmas and claim C10 -/

theorem length_updateFirstBy (p : α → Bool) (f : α → α) (l : List α) :
    (updateFirstBy p f l).length = l.length := by
  induction l with
  | nil => rfl
  | cons a as ih =>
    simp only [updateFirstBy]
    by_cases h : p a = true
    · simp [h]
    · simp [h, ih]

theorem find?_updateFirstBy_hit (k v : String) (l : List (String × String))
    (h : l.any (fun kv => kv.1 == k) = true) :
    (updateFirstBy (fun kv => kv.1 == k) (fun _ => (k, v)) l).find?
      (fun kv => kv.1 == k) = some (k, v) := by
  induction l with
  | nil => simp at h
  | cons a as ih =>
    simp only [updateFirstBy]
    by_cases ha : (a.1 == k) = true
    · simp [ha, List.find?]
    · rw [if_neg ha]
      simp only [List.find?, ha]
      apply ih
      simp only [List.any_cons, ha, Bool.false_or] at h
      exact h

theorem find?_updateFirstBy_miss (k k' v : String) (l : List (String × String))
    (hk : k' ≠ k) :
    (updateFirstBy (fun kv => kv.1 == k) (fun _ => (k, v)) l).find?
      (fun kv => kv.1 == k') = l.find? (fun kv => kv.1 == k') := by
  induction l with
  | nil => rfl
  | cons a as ih =>
    simp only [updateFirstBy]
    by_cases ha : (a.1 == k) = true
    · rw [if_pos ha]
      have ha' : a.1 = k := by simpa using ha
      have h1 : ((k, v).1 == k') = false := by
        simp [beq_eq_false_iff_ne]
        exact fun h => hk h.symm
      have h2 : (a.1 == k') = false := by
        simp [beq_eq_false_iff_ne, ha']
        exact fun h => hk h.symm
      simp [List.find?, h1, h2]
    · rw [if_neg ha]
      simp only [List.find?]
      cases hb : (a.1 == k') <;> simp [ih]

theorem get_setting_set_setting_same (db : Db) (k v : String) (d : Option String) :
    get_setting (set_setting db k v) k d = some v := by
  simp only [set_setting]
  by_cases h : db.settings.any (fun kv => kv.1 == k) = true
  · rw [if_pos h]
    simp only [get_setting, find?_updateFirstBy_hit k v db.settings h]
  · rw [if_neg h]
    simp only [get_setting]
    have hnone : db.settings.find? (fun kv => kv.1 == k) = none := by
      rw [List.find?_eq_none]
      intro x hx
      intro hpx
      exact absurd (List.any_eq_true.mpr ⟨x, hx, hpx⟩) h
    rw [List.find?_append, hnone]
    simp [List.find?]

theorem get_setting_set_setting_other (db : Db) (k k' v : String) (d : Option String)
    (hk : k' ≠ k) :
    get_setting (set_setting db k v) k' d = get_setting db k' d := by
  simp only [set_setting]
  by_cases h : db.settings.any (fun kv => kv.1 == k) = true
  · rw [if_pos h]
    simp only [get_setting, find?_updateFirstBy_miss k k' v db.settings hk]
  · rw [if_neg h]
    simp only [get_setting]
    rw [List.find?_append]
    have hkk : (k == k') = false := by
      rw [beq_eq_false_iff_ne]
      exact fun hh => hk hh.symm
    have h1 : ([(k, v)].find? (fun kv => kv.1 == k')) = none := by
      simp [List.find?, hkk]
    rw [h1]
    cases db.settings.find? (fun kv => kv.1 == k') <;> rfl

theorem get_business_hours_set_business_hours (db : Db) (s e : Int) :
    get_business_hours (set_business_hours db s e) = some (s, e) := by
  have hne : ("business_hours_start" : String) ≠ "business_hours_end" := by decide
  simp only [get_business_hours, set_business_hours,
    get_setting_set_setting_other _ _ _ _ _ hne,
    get_setting_set_setting_same]
  simp [pyIntParse?_pyStrInt]

/-- C10: setting a key then reading it yields the new value with no duplicate
row; other keys are untouched; `get_business_hours` after
`set_business_hours(s, e)` is exactly `(s, e)`; an unset key falls back to the
built-in defaults for the three scheduling keys and otherwise to the
caller-supplied default. -/
theorem settings_get_set_spec (db : Db) (k k' v : String) (d : Option String) (s e : Int)
    (hk : k' ≠ k) :
    get_setting (set_setting db k v) k d = some v
    ∧ (set_setting db k v).settings.length =
        (if db.settings.any (fun kv => kv.1 == k) then db.settings.length
         else db.settings.length + 1)
    ∧ get_setting (set_setting db k v) k' d = get_setting db k' d
    ∧ get_business_hours (set_business_hours db s e) = some (s, e)
    ∧ (db.settings.all (fun kv => kv.1 != k) = true →
        (k = "business_hours_start" → get_setting db k d = some "12")
        ∧ (k = "business_hours_end" → get_setting db k d = some "20")
        ∧ (k = "slot_duration" → get_setting db k d = some "15")
        ∧ (k ≠ "business_hours_start" → k ≠ "business_hours_end" → k ≠ "slot_duration" →
            get_setting db k d = d)) := by
  refine ⟨get_setting_set_setting_same db k v d, ?_,
    get_setting_set_setting_other db k k' v d hk,
    get_business_hours_set_business_hours db s e, ?_⟩
  · simp only [set_setting]
    by_cases h : db.settings.any (fun kv => kv.1 == k) = true
    · simp [h, length_updateFirstBy]
    · simp [h]
  · intro hunset
    have hnone : db.settings.find? (fun kv => kv.1 == k) = none := by
      rw [List.find?_eq_none]
      intro x hx hpx
      have := List.all_eq_true.mp hunset x hx
      simp only [bne_iff_ne, ne_eq] at this
      exact this (by simpa using hpx)
    refine ⟨?_, ?_, ?_, ?_⟩
    · intro hkeq; subst hkeq; simp [get_setting, hnone]; rfl
    · intro hkeq; subst hkeq; simp [get_setting, hnone]; rfl
    · intro hkeq; subst hkeq; simp [get_setting, hnone]; rfl
    · intro h1 h2 h3
      have hdef : DEFAULT_SETTINGS.find? (fun kv => kv.1 == k) = none := by
        rw [List.find?_eq_none]
        intro x hx hpx
        have hxk : x.1 = k := by simpa using hpx
        simp only [DEFAULT_SETTINGS, List.mem_cons, List.mem_singleton] at hx
        rcases hx with rfl | rfl | rfl | h
        · exact h1 (by rw [← hxk])
        · exact h2 (by rw [← hxk])
        · exact h3 (by rw [← hxk])
        · simp at h
      simp [get_setting, hnone, hdef]

/-- Witness for C10 at a concrete store and concrete keys. -/
theorem settings_get_set_spec_witness :
    let db0 : Db := { appointments := [], services := [], clients := [], barbers := [],
                      settings := [], next_appointment_id := 1 }
    get_setting (set_setting db0 "theme" "dark") "theme" none = some "dark"
    ∧ get_business_hours (set_business_hours db0 8 18) = some (8, 18)
    ∧ get_setting db0 "business_hours_start" none = some "12"
    ∧ get_setting db0 "other_key" (some "fallback") = some "fallback" := by
  intro db0
  have h := settings_get_set_spec db0 "theme" "other" "dark" none 8 18 (by decide)
  have h2 := settings_get_set_spec db0 "business_hours_start" "other" "x" none 8 18 (by decide)
  have h3 := settings_get_set_spec db0 "other_key" "other" "x" (some "fallback") 8 18 (by decide)
  refine ⟨h.1, h.2.2.2.1, ?_, ?_⟩
  · exact (h2.2.2.2.2 (by decide)).1 rfl
  · exact (h3.2.2.2.2 (by decide)).2.2.2 (by decide) (by decide) (by decide)

theorem hourBlock_eq (h : Int) : hourBlock h = [(h, 0), (h, 15), (h, 30), (h, 45)] := rfl

theorem slotsFor_eq_aux (s e : Int) : slotsFor s e = slotsForAux s (e - s).toNat := rfl

theorem mem_intRangeAux {s : Int} {n : Nat} {h : Int} :
    h ∈ intRangeAux s n ↔ s ≤ h ∧ h < s + n := by
  induction n generalizing s with
  | zero => simp [intRangeAux]
  | succ m ih =>
    simp only [intRangeAux, List.mem_cons, ih]
    constructor
    · rintro (rfl | ⟨h1, h2⟩) <;> omega
    · intro ⟨h1, h2⟩
      by_cases hh : h = s
      · exact Or.inl hh
      · right; omega

theorem slotsForAux_length (s : Int) (n : Nat) : (slotsForAux s n).length = n * 4 := by
  induction n generalizing s with
  | zero => rfl
  | succ m ih =>
    simp only [slotsForAux, intRangeAux, List.flatMap_cons, List.length_append]
    have := ih (s + 1)
    simp only [slotsForAux] at this
    rw [this, hourBlock_eq]
    simp
    omega

theorem slotsForAux_head (s : Int) (n : Nat) (hn : 0 < n) :
    (slotsForAux s n).head? = some (s, 0) := by
  cases n with
  | zero => omega
  | succ m => simp [slotsForAux, intRangeAux, List.flatMap_cons, hourBlock_eq]

theorem slotsForAux_getLast (s : Int) (n : Nat) (hn : 0 < n) :
    (slotsForAux s n).getLast? = some (s + n - 1, 45) := by
  induction n generalizing s with
  | zero => omega
  | succ m ih =>
    cases Nat.eq_zero_or_pos m with
    | inl h0 =>
      subst h0
      simp only [slotsForAux, intRangeAux, List.flatMap_cons, List.flatMap_nil,
        List.append_nil, hourBlock_eq]
      norm_num
    | inr hm =>
      simp only [slotsForAux, intRangeAux, List.flatMap_cons]
      rw [List.getLast?_append]
      have hrec := ih (s + 1) hm
      simp only [slotsForAux] at hrec
      rw [hrec]
      simp only [Option.or_some]
      congr 2
      push_cast
      ring

theorem slotsForAux_chain (s : Int) (n : Nat) :
    List.Chain' (fun x y => slotKey x < slotKey y) (slotsForAux s n) := by
  induction n generalizing s with
  | zero => simp [slotsForAux, intRangeAux]
  | succ m ih =>
    simp only [slotsForAux, intRangeAux, List.flatMap_cons]
    rw [List.chain'_append]
    refine ⟨?_, ?_, ?_⟩
    · rw [hourBlock_eq]
      simp only [List.chain'_cons, List.chain'_singleton, and_true, slotKey]
      omega
    · exact ih (s + 1)
    · intro x hx y hy
      rw [hourBlock_eq] at hx
      simp only [List.getLast?_cons_cons, List.getLast?_singleton, Option.mem_def,
        Option.some_inj] at hx
      subst hx
      cases Nat.eq_zero_or_pos m with
      | inl h0 => subst h0; simp [slotsForAux, intRangeAux] at hy
      | inr hm0 =>
        have := slotsForAux_head (s + 1) m hm0
        simp only [slotsForAux] at this
        rw [this] at hy
        simp only [Option.mem_def, Option.some_inj] at hy
        subst hy
        simp [slotKey]
        omega

theorem mem_slotsForAux {s : Int} {n : Nat} {p : Int × Nat} (hp : p ∈ slotsForAux s n) :
    s ≤ p.1 ∧ p.1 < s + n ∧ p.2 ∈ ([0, 15, 30, 45] : List Nat) := by
  simp only [slotsForAux, List.mem_flatMap] at hp
  obtain ⟨h, hh, hph⟩ := hp
  rw [hourBlock_eq] at hph
  have hr := mem_intRangeAux.mp hh
  simp only [List.mem_cons, List.not_mem_nil, or_false] at hph
  rcases hph with rfl | rfl | rfl | rfl
  · exact ⟨hr.1, hr.2, by simp⟩
  · exact ⟨hr.1, hr.2, by simp⟩
  · exact ⟨hr.1, hr.2, by simp⟩
  · exact ⟨hr.1, hr.2, by simp⟩

/-- C4 (amended): the generated slot grid always steps by the hard-coded 15
minutes (the stored `slot_duration` setting is ignored): for configured hours
`(s, e)` with `s < e` it has `(e - s) * 4` slots, is strictly increasing,
starts at `(s, 0)`, ends at `(e - 1, 45)`, and every slot is an in-range hour
with minute in `{0, 15, 30, 45}`. -/
theorem get_all_time_slots_spec (db : Db) (s e : Int)
    (hbh : get_business_hours db = some (s, e)) (hse : s < e) :
    ∃ L, get_all_time_slots (some db) = some L
      ∧ L.length = (e - s).toNat * 4
      ∧ L.head? = some (s, 0)
      ∧ L.getLast? = some (e - 1, 45)
      ∧ List.Chain' (fun x y => slotKey x < slotKey y) L
      ∧ ∀ p ∈ L, s ≤ p.1 ∧ p.1 < e ∧ p.2 ∈ ([0, 15, 30, 45] : List Nat) := by
  refine ⟨slotsFor s e, ?_, ?_, ?_, ?_, ?_, ?_⟩
  · simp [get_all_time_slots, hbh]
  · rw [slotsFor_eq_aux]; exact slotsForAux_length s (e - s).toNat
  · rw [slotsFor_eq_aux]
    exact slotsForAux_head s (e - s).toNat (by omega)
  · rw [slotsFor_eq_aux]
    rw [slotsForAux_getLast s (e - s).toNat (by omega)]
    congr 2
    omega
  · rw [slotsFor_eq_aux]; exact slotsForAux_chain s (e - s).toNat
  · intro p hp
    rw [slotsFor_eq_aux] at hp
    have := mem_slotsForAux hp
    refine ⟨this.1, by omega, this.2.2⟩

/-- C4 counterexample: with `slot_duration = 30` stored in settings, the claim
predicts `(20 - 12) * (60 / 30) = 16` slots, but the code still generates
`(20 - 12) * (60 / 15) = 32` because the interval is the hard-coded constant. -/
theorem get_all_time_slots_slot_duration_counterexample :
    get_setting dbSlot30 "slot_duration" none = some "30"
    ∧ (get_all_time_slots (some dbSlot30)).map List.length = some 32
    ∧ ¬ (get_all_time_slots (some dbSlot30)).map List.length = some ((20 - 12) * (60 / 30)) := by
  refine ⟨rfl, ?_, ?_⟩ <;> decide

/-- Witness for C4 at the default configuration (hours 12–20): 32 slots,
first `(12, 0)`, last `(19, 45)`. -/
theorem get_all_time_slots_spec_witness :
    let db0 : Db := { appointments := [], services := [], clients := [], barbers := [],
                      settings := [], next_appointment_id := 1 }
    ∃ L, get_all_time_slots (some db0) = some L
      ∧ L.length = 32 ∧ L.head? = some (12, 0) ∧ L.getLast? = some (19, 45) := by
  intro db0
  obtain ⟨L, h1, h2, h3, h4, _, _⟩ :=
    get_all_time_slots_spec db0 12 20 (by decide) (by decide)
  exact ⟨L, h1, by rw [h2]; decide, h3, by rw [h4]; decide⟩

/-! ### Claim C1: the explicit-window availability check -/

/-- C1 (amended): provided no stored appointment has id `0` (autoincrement
primary keys start at 1), `check_slot_availability` is true iff no
non-cancelled appointment of the barber other than the excluded one meets the
half-open overlap test; appointments of other barbers never affect the
result; and with `exclude = X` the check accepts appointment `X`'s own window
whenever no other appointment of the barber overlaps it. -/
theorem check_slot_availability_spec (db : Db) (st et : Int) (b : Nat) (x : Option Nat)
    (hid : ∀ a ∈ db.appointments, a.id ≠ 0) :
    (check_slot_availability db st et b x = true ↔
      ∀ a ∈ db.appointments, ¬(a.status ≠ "cancelled" ∧ a.barber_id = b ∧
        some a.id ≠ x ∧ a.start_time < et ∧ st < a.end_time))
    ∧ (∀ extra : Appointment, extra.barber_id ≠ b →
        check_slot_availability { db with appointments := extra :: db.appointments } st et b x
          = check_slot_availability db st et b x)
    ∧ (∀ a ∈ db.appointments, a.barber_id = b → a.status ≠ "cancelled" →
        (∀ other ∈ db.appointments, other.id ≠ a.id →
          ¬(other.status ≠ "cancelled" ∧ other.barber_id = b ∧
            other.start_time < a.end_time ∧ a.start_time < other.end_time)) →
        check_slot_availability db a.start_time a.end_time b (some a.id) = true) := by
  have main : ∀ (st' et' : Int) (x' : Option Nat),
      (check_slot_availability db st' et' b x' = true ↔
        ∀ a ∈ db.appointments, ¬(a.status ≠ "cancelled" ∧ a.barber_id = b ∧
          some a.id ≠ x' ∧ a.start_time < et' ∧ st' < a.end_time)) := by
    intro st' et' x'
    cases x' with
    | none =>
      simp only [check_slot_availability, beq_iff_eq, List.length_eq_zero, find_overlapping,
        List.filter_eq_nil_iff, Bool.and_eq_true, bne_iff_ne, beq_iff_eq, decide_eq_true_eq,
        ne_eq, Option.some_ne_none, not_false_eq_true, true_and, gt_iff_lt]
      constructor
      · intro h a ha hcon
        exact h a ha (by tauto)
      · intro h a ha hcon
        exact h a ha (by tauto)
    | some e =>
      by_cases he : e ≠ 0
      · simp only [check_slot_availability, beq_iff_eq, List.length_eq_zero, find_overlapping,
          if_pos he, List.filter_filter, List.filter_eq_nil_iff, Bool.and_eq_true, bne_iff_ne,
          beq_iff_eq, decide_eq_true_eq, ne_eq, Option.some_inj, gt_iff_lt]
        constructor
        · intro h a ha hcon
          exact h a ha (by tauto)
        · intro h a ha hcon
          exact h a ha (by tauto)
      · push_neg at he
        subst he
        simp only [check_slot_availability, beq_iff_eq, List.length_eq_zero, find_overlapping,
          ne_eq, not_true_eq_false, if_false, List.filter_eq_nil_iff, Bool.and_eq_true,
          bne_iff_ne, beq_iff_eq, decide_eq_true_eq, Option.some_inj, gt_iff_lt]
        constructor
        · intro h a ha hcon
          exact h a ha (by tauto)
        · intro h a ha hcon
          have hc := hid a ha
          exact h a ha (by tauto)
  refine ⟨main st et x, ?_, ?_⟩
  · intro extra hextra
    simp only [check_slot_availability, find_overlapping, List.filter_cons]
    have hb : ((extra.status != "cancelled") && (extra.barber_id == b) &&
        decide (extra.start_time < et) && decide (extra.end_time > st)) = false := by
      have hbb : (extra.barber_id == b) = false := by
        rw [beq_eq_false_iff_ne]; exact hextra
      simp [hbb]
    rw [hb]
    simp
  · intro a ha hab hstat hothers
    rw [main a.start_time a.end_time (some a.id)]
    intro a' ha' hcon
    by_cases hsame : a'.id = a.id
    · exact hcon.2.2.1 (by simp [hsame])
    · exact hothers a' ha' hsame ⟨hcon.1, hcon.2.1, hcon.2.2.2.1, hcon.2.2.2.2⟩

/-- C1 counterexample: with `exclude = 0` and a stored appointment of id 0,
the claim demands `True` for the appointment's own window (self-exclusion, no
other appointment of the barber exists), but the truthiness test
`if exclude_id:` drops the exclusion filter and the check returns `False`. -/
theorem check_slot_availability_counterexample :
    dbId0.appointments.all (fun a => a.id == 0) = true
    ∧ (dbId0.appointments.filter (fun a => a.barber_id == 1)).length = 1
    ∧ check_slot_availability dbId0 0 30 1 (some 0) = false := by
  decide

/-- Witness for C1: in the concrete two-appointment store the self-exclusion
acceptance applies, while the same window without exclusion is rejected. -/
theorem check_slot_availability_spec_witness :
    check_slot_availability dbW1 720 750 1 (some 1) = true
    ∧ check_slot_availability dbW1 720 750 1 none = false := by
  have h := check_slot_availability_spec dbW1 720 750 1 (some 1) (by decide)
  refine ⟨?_, by decide⟩
  exact h.2.2 apptW1 (by decide) rfl (by decide) (by decide)

/-! ### Claim C2: appointment creation -/

/-- C2: `create_appointment` fails with the not-found errors when the service
or client is missing, fails with the slot-unavailable error (store unchanged)
when the window `[t, t + duration)` conflicts, and otherwise appends exactly
one new appointment with status `"pending"` and
`end_time = start_time + service.duration`; every failure is a returned
`(value, error)` pair, never an exception. -/
theorem create_appointment_spec (db : Db) (cid sid bid : Nat) (t : Int)
    (sync : Bool) (g : Option String) :
    (db.services.find? (fun s => s.id == sid) = none →
      create_appointment db cid sid bid t sync g = ((none, some "Servicio no encontrado"), db))
    ∧ (∀ sv, db.services.find? (fun s => s.id == sid) = some sv →
        db.clients.find? (fun c => c.id == cid) = none →
        create_appointment db cid sid bid t sync g = ((none, some "Cliente no encontrado"), db))
    ∧ (∀ sv, db.services.find? (fun s => s.id == sid) = some sv →
        ∀ c, db.clients.find? (fun c2 => c2.id == cid) = some c →
        check_slot_availability db t (t + sv.duration) bid none = false →
        create_appointment db cid sid bid t sync g =
          ((none, some "El horario seleccionado no está disponible para este barbero"), db))
    ∧ (∀ sv, db.services.find? (fun s => s.id == sid) = some sv →
        ∀ c, db.clients.find? (fun c2 => c2.id == cid) = some c →
        check_slot_availability db t (t + sv.duration) bid none = true →
        ∃ appt, create_appointment db cid sid bid t sync g =
            ((some appt, none),
             { db with appointments := db.appointments ++ [appt],
                       next_appointment_id := db.next_appointment_id + 1 })
          ∧ appt.status = "pending" ∧ appt.start_time = t
          ∧ appt.end_time = t + sv.duration
          ∧ appt.client_id = cid ∧ appt.service_id = sid ∧ appt.barber_id = bid
          ∧ appt.id = db.next_appointment_id) := by
  refine ⟨?_, ?_, ?_, ?_⟩
  · intro h
    simp [create_appointment, h]
  · intro sv hsv hcl
    simp [create_appointment, hsv, hcl]
  · intro sv hsv c hcl hfail
    simp [create_appointment, hsv, hcl, hfail]
  · intro sv hsv c hcl hok
    simp only [create_appointment, hsv, hcl, hok, if_true]
    refine ⟨_, rfl, ?_, ?_, ?_, ?_, ?_, ?_, ?_⟩ <;>
      (by_cases hs : (sync && is_sync_enabled db) = true
       · cases g <;> simp [hs]
       · rw [Bool.not_eq_true] at hs
         simp [hs])

/-- Witness for C2: a concrete successful creation and a concrete
service-not-found failure, both obtained from the theorem. -/
theorem create_appointment_spec_witness :
    (∃ appt, create_appointment dbW2 1 1 1 720 true none =
        ((some appt, none),
         { dbW2 with appointments := [appt], next_appointment_id := 2 })
      ∧ appt.status = "pending" ∧ appt.end_time = 750)
    ∧ create_appointment dbW2 1 99 1 720 true none =
        ((none, some "Servicio no encontrado"), dbW2) := by
  constructor
  · obtain ⟨appt, h1, h2, h3, h4, _⟩ :=
      (create_appointment_spec dbW2 1 1 1 720 true none).2.2.2 svcW (by decide) cliW
        (by decide) (by decide)
    exact ⟨appt, by simpa using h1, h2, by rw [h4]; decide⟩
  · exact (create_appointment_spec dbW2 1 99 1 720 true none).1 (by decide)

/-! ### Claim C9: deleting a missing appointment -/

/-- C9: deleting a non-existent appointment id returns the not-found error
and leaves the store unchanged, and a second attempt fails identically. -/
theorem delete_appointment_missing_spec (db : Db) (aid : Nat)
    (h : db.appointments.find? (fun a => a.id == aid) = none) :
    delete_appointment db aid = ((false, some "Turno no encontrado"), db)
    ∧ delete_appointment (delete_appointment db aid).2 aid =
        ((false, some "Turno no encontrado"), db) := by
  have h1 : delete_appointment db aid = ((false, some "Turno no encontrado"), db) := by
    simp [delete_appointment, get_appointment_by_id, h]
  refine ⟨h1, ?_⟩
  rw [h1]
  exact h1

/-- Witness for C9 on a concrete store missing id 42. -/
theorem delete_appointment_missing_spec_witness :
    delete_appointment dbW1 42 = ((false, some "Turno no encontrado"), dbW1)
    ∧ delete_appointment (delete_appointment dbW1 42).2 42 =
        ((false, some "Turno no encontrado"), dbW1) := by
  exact delete_appointment_missing_spec dbW1 42 (by decide)

/-- C6 counterexample: updating a confirmed appointment back to `"pending"`
succeeds and the stored status becomes `"pending"` again. -/
theorem update_status_back_to_pending_counterexample :
    (dbConfirmed.appointments.map Appointment.status) = ["confirmed"]
    ∧ (update_appointment_status dbConfirmed 1 "pending").1.2 = none
    ∧ ((update_appointment_status dbConfirmed 1 "pending").2.appointments.map
        Appointment.status) = ["pending"] := by
  decide

/-- C6 (amended): `update_appointment_status` enforces no transition order:
for any of the three valid statuses it overwrites the current status
unconditionally (so `confirmed`/`cancelled` can return to `"pending"`); it
rejects only unknown status strings and missing ids, leaving the store
unchanged. -/
theorem update_appointment_status_spec (db : Db) (aid : Nat) (st : String)
    (hst : st ∈ ["pending", "confirmed", "cancelled"]) :
    (∀ a, db.appointments.find? (fun x => x.id == aid) = some a →
      update_appointment_status db aid st =
        ((some { a with status := st }, none),
         { db with appointments := (updateFirstBy (fun x => x.id == aid)
             (fun x => { x with status := st }) db.appointments) }))
    ∧ (db.appointments.find? (fun x => x.id == aid) = none →
      update_appointment_status db aid st = ((none, some "Turno no encontrado"), db))
    ∧ (∀ bad : String, bad ∉ ["pending", "confirmed", "cancelled"] →
      update_appointment_status db aid bad =
        ((none, some "Estado inválido. Use: pending, confirmed, cancelled"), db)) := by
  refine ⟨?_, ?_, ?_⟩
  · intro a hfind
    simp [update_appointment_status, hst, hfind]
  · intro hfind
    simp [update_appointment_status, hst, hfind]
  · intro bad hbad
    simp [update_appointment_status, hbad]

/-- Witness for C6: the amended theorem applied to the confirmed appointment,
moving it back to pending. -/
theorem update_appointment_status_spec_witness :
    update_appointment_status dbConfirmed 1 "pending" =
      ((some ⟨1, 1, 1, 1, 720, 750, "pending", none⟩, none),
       { dbConfirmed with appointments := [⟨1, 1, 1, 1, 720, 750, "pending", none⟩] }) := by
  have h := (update_appointment_status_spec dbConfirmed 1 "pending" (by decide)).1
    ⟨1, 1, 1, 1, 720, 750, "confirmed", none⟩ (by decide)
  simpa using h

/-- C5 evaluation at the failing input: barber 1 has a future non-cancelled
(`"pending"`) appointment as of day 0, yet `can_deactivate` reports `True`
(its filter matches only the Spanish literals `"pendiente"`/`"confirmado"`)
and `toggle_active` deactivates the barber with no error — contradicting both
the claim and the code's own intent. -/
theorem toggle_active_future_appointment_code_bug :
    (dbBarberBug.appointments.filter (fun a => (a.barber_id == 1)
      && decide (0 ≤ Int.fdiv a.start_time 1440)
      && (a.status == "pending" || a.status == "confirmed"))).length = 1
    ∧ can_deactivate dbBarberBug 1 0 = (true, none)
    ∧ (toggle_active dbBarberBug 1 0).1.2 = none
    ∧ ((toggle_active dbBarberBug 1 0).2.barbers.map (fun b => (b.id, b.is_active)))
        = [(1, false), (2, true)] := by
  decide

theorem filter_absorb (q p : α → Bool) (l : List α)
    (h : ∀ a, p a = true → q a = true) :
    (l.filter q).filter p = l.filter p := by
  rw [List.filter_filter]
  apply List.filter_congr
  intro a _
  cases hpa : p a
  · simp
  · simp [h a hpa]

theorem filter_status_drop_cancelled (st : String) (hst : st ≠ "cancelled")
    (l : List Appointment) (r : Appointment → Bool) :
    ((l.filter (fun a => a.status != "cancelled")).filter r).filter
        (fun a => a.status == st)
      = (l.filter r).filter (fun a => a.status == st) := by
  rw [List.filter_filter, List.filter_filter, List.filter_filter]
  apply List.filter_congr
  intro a _
  cases hc : (a.status == st)
  · simp [hc]
  · have heq : a.status = st := by simpa using hc
    have hko : (a.status != "cancelled") = true := by
      simp only [bne_iff_ne, ne_eq, heq]
      exact hst
    simp [hc, hko]

theorem servicePrice_removeCancelled (db : Db) :
    servicePrice (removeCancelled db) = servicePrice db := rfl

theorem servicePrice_set_appointments (db : Db) (l : List Appointment) :
    servicePrice { db with appointments := l } = servicePrice db := rfl

/-- C8 (amended): cancelled appointments contribute zero income in the
period stats and in every income figure of the status stats, and barber
performance is unaffected by cancelled rows whenever the status filter is not
the explicit string `"cancelled"`; with that explicit filter the income sums
the cancelled appointments' prices instead. -/
theorem stats_cancelled_zero_income_spec (db : Db) (sd ed : Int) (status : Option String)
    (hstatus : status ≠ some "cancelled") :
    get_stats_by_period (removeCancelled db) sd ed = get_stats_by_period db sd ed
    ∧ (get_stats_by_status (removeCancelled db) sd ed).confirmed_income
        = (get_stats_by_status db sd ed).confirmed_income
    ∧ (get_stats_by_status (removeCancelled db) sd ed).pending_income
        = (get_stats_by_status db sd ed).pending_income
    ∧ (get_stats_by_status db sd ed).cancelled_income = 0
    ∧ (get_stats_by_status (removeCancelled db) sd ed).total_income
        = (get_stats_by_status db sd ed).total_income
    ∧ get_barber_performance (removeCancelled db) sd ed status
        = get_barber_performance db sd ed status := by
  have hconf :
      ((db.appointments.filter (fun a => a.status != "cancelled")).filter
          (fun a => decide (sd * 1440 ≤ a.start_time) &&
            decide (a.start_time ≤ ed * 1440 + 1439))).filter
        (fun a => a.status == "confirmed")
      = (db.appointments.filter
          (fun a => decide (sd * 1440 ≤ a.start_time) &&
            decide (a.start_time ≤ ed * 1440 + 1439))).filter
        (fun a => a.status == "confirmed") :=
    filter_status_drop_cancelled "confirmed" (by decide) db.appointments _
  have hpend :
      ((db.appointments.filter (fun a => a.status != "cancelled")).filter
          (fun a => decide (sd * 1440 ≤ a.start_time) &&
            decide (a.start_time ≤ ed * 1440 + 1439))).filter
        (fun a => a.status == "pending")
      = (db.appointments.filter
          (fun a => decide (sd * 1440 ≤ a.start_time) &&
            decide (a.start_time ≤ ed * 1440 + 1439))).filter
        (fun a => a.status == "pending") :=
    filter_status_drop_cancelled "pending" (by decide) db.appointments _
  refine ⟨?_, ?_, ?_, rfl, ?_, ?_⟩
  · have habs := filter_absorb (fun a : Appointment => a.status != "cancelled")
      (fun a : Appointment => decide (sd * 1440 ≤ a.start_time) &&
        decide (a.start_time ≤ ed * 1440 + 1439) && (a.status != "cancelled"))
      db.appointments
      (by intro a hpa
          simp only [Bool.and_eq_true] at hpa
          exact hpa.2)
    simp only [get_stats_by_period, removeCancelled, servicePrice_set_appointments, habs]
  · simp only [get_stats_by_status, removeCancelled, servicePrice_set_appointments, hconf]
  · simp only [get_stats_by_status, removeCancelled, servicePrice_set_appointments, hpend]
  · simp only [get_stats_by_status, removeCancelled, servicePrice_set_appointments, hconf]
  · have hpsf : ∀ a : Appointment, performanceStatusFilter status a = true →
        (a.status != "cancelled") = true := by
      intro a hp
      cases status with
      | none => simpa [performanceStatusFilter] using hp
      | some st =>
        by_cases hs : st ≠ ""
        · simp only [performanceStatusFilter, if_pos hs] at hp
          have heq : a.status = st := by simpa using hp
          have hstc : st ≠ "cancelled" := fun hh => hstatus (by rw [hh])
          simp only [bne_iff_ne, ne_eq, heq]
          exact hstc
        · simp only [performanceStatusFilter, if_neg hs] at hp
          exact hp
    simp only [get_barber_performance, removeCancelled, servicePrice_set_appointments]
    congr 1
    funext b
    have habs := filter_absorb (fun a : Appointment => a.status != "cancelled")
      (fun a : Appointment => (a.barber_id == b.id)
        && (db.services.any (fun sv => sv.id == a.service_id))
        && decide (sd * 1440 ≤ a.start_time)
        && decide (a.start_time ≤ ed * 1440 + 1439)
        && performanceStatusFilter status a)
      db.appointments
      (by intro a hpa
          simp only [Bool.and_eq_true] at hpa
          exact hpsf a hpa.2)
    rw [habs]

/-- C8 counterexample: with the explicit status filter `"cancelled"`,
`get_barber_performance` reports income 100 — the cancelled appointment's
service price — contradicting "cancelled appointments always contribute zero
income". -/
theorem get_barber_performance_cancelled_income_counterexample :
    get_barber_performance dbCancelledPerf 0 0 (some "cancelled")
      = [("Bruno", 1, (100 : Rat))]
    ∧ (100 : Rat) ≠ 0 := by
  constructor
  · simp +decide [get_barber_performance, dbCancelledPerf, performanceStatusFilter,
      servicePrice, List.filter_cons, List.filterMap_cons]
  · norm_num

/-- Witness for C8: the amended theorem applied at the cancelled-appointment
store with no explicit status filter. -/
theorem stats_cancelled_zero_income_spec_witness :
    get_barber_performance (removeCancelled dbCancelledPerf) 0 0 none
      = get_barber_performance dbCancelledPerf 0 0 none
    ∧ (get_stats_by_status dbCancelledPerf 0 0).cancelled_income = 0 := by
  have h := stats_cancelled_zero_income_spec dbCancelledPerf 0 0 none (by decide)
  exact ⟨h.2.2.2.2.2, h.2.2.2.1⟩

/-! ### Claim C3: per-slot availability -/

/-- C3: each generated slot is marked unavailable when it would run past
closing, and otherwise is available iff no fetched appointment strictly
overlaps it; with no fetched appointments every fitting slot is available,
and slots merely touching an appointment boundary stay available. -/
theorem get_available_slots_spec (db : Db) (d dur : Int) (bid : Nat) (s e : Int)
    (hbh : get_business_hours db = some (s, e))
    (h0 : 0 ≤ s) (hse : s < e) (h23 : e ≤ 23) :
    ∃ R, get_available_slots db d dur bid = some R
      ∧ R.map (fun r => (r.1, r.2.1)) = slotsFor s e
      ∧ (∀ r ∈ R, r.2.2 = true ↔
          (combineTime d r.1 r.2.1 + dur ≤ combineTime d e 0
           ∧ ∀ a ∈ get_appointments_for_date db d (some bid),
              ¬(a.start_time < combineTime d r.1 r.2.1 + dur
                ∧ combineTime d r.1 r.2.1 < a.end_time)))
      ∧ (get_appointments_for_date db d (some bid) = [] →
          ∀ r ∈ R, r.2.2 = decide (combineTime d r.1 r.2.1 + dur ≤ combineTime d e 0))
      ∧ (∀ r ∈ R, combineTime d r.1 r.2.1 + dur ≤ combineTime d e 0 →
          (∀ a ∈ get_appointments_for_date db d (some bid),
            a.end_time ≤ combineTime d r.1 r.2.1 ∨
              combineTime d r.1 r.2.1 + dur ≤ a.start_time) →
          r.2.2 = true) := by
  have htn : ((e - s).toNat : Int) = e - s := Int.toNat_of_nonneg (by omega)
  have hbound : ∀ hm ∈ slotsFor s e, s ≤ hm.1 ∧ hm.1 < e := by
    intro hm hmem
    rw [slotsFor_eq_aux] at hmem
    have hb := mem_slotsForAux hmem
    exact ⟨hb.1, by omega⟩
  have hguard : (slotsFor s e).all (fun hm => validHour hm.1 && validHour e) = true := by
    rw [List.all_eq_true]
    intro hm hmem
    have hb := hbound hm hmem
    simp only [validHour, Bool.and_eq_true, decide_eq_true_eq]
    omega
  simp only [get_available_slots, get_all_time_slots, hbh, Option.map_some']
  rw [if_pos hguard]
  refine ⟨_, rfl, ?_, ?_, ?_, ?_⟩
  · rw [List.map_map]
    have : ∀ hm ∈ slotsFor s e,
        ((fun (r : Int × Nat × Bool) => (r.1, r.2.1)) ∘ (fun hm =>
          if combineTime d hm.1 hm.2 + dur > combineTime d e 0 then (hm.1, hm.2, false)
          else (hm.1, hm.2, (get_appointments_for_date db d (some bid)).all (fun a =>
            !(decide (a.start_time < combineTime d hm.1 hm.2 + dur) &&
              decide (a.end_time > combineTime d hm.1 hm.2)))))) hm = id hm := by
      intro hm _
      by_cases hc : combineTime d hm.1 hm.2 + dur > combineTime d e 0 <;> simp [hc]
    rw [List.map_congr_left this, List.map_id]
  · intro r hr
    obtain ⟨hm, hmem, rfl⟩ := List.mem_map.mp hr
    by_cases hc : combineTime d hm.1 hm.2 + dur > combineTime d e 0
    · rw [if_pos hc]
      simp only [Bool.false_eq_true, false_iff, not_and]
      intro hfit
      omega
    · rw [if_neg hc]
      simp only [List.all_eq_true, Bool.not_eq_eq_eq_not, Bool.not_true, Bool.and_eq_false_iff,
        decide_eq_false_iff_not, not_lt, gt_iff_lt]
      constructor
      · intro h
        refine ⟨by omega, ?_⟩
        intro a ha hcon
        rcases h a ha with h1 | h1
        · exact absurd hcon.1 (by omega)
        · exact absurd hcon.2 (by omega)
      · intro h a ha
        by_cases h1 : a.start_time < combineTime d hm.1 hm.2 + dur
        · right
          by_contra h2
          exact h.2 a ha ⟨h1, by omega⟩
        · left
          omega
  · intro hempty r hr
    obtain ⟨hm, hmem, rfl⟩ := List.mem_map.mp hr
    rw [hempty]
    by_cases hc : combineTime d hm.1 hm.2 + dur > combineTime d e 0
    · rw [if_pos hc]
      simp only [List.all_nil]
      have : ¬ (combineTime d hm.1 hm.2 + dur ≤ combineTime d e 0) := by omega
      simp [this]
    · rw [if_neg hc]
      simp only [List.all_nil]
      have : combineTime d hm.1 hm.2 + dur ≤ combineTime d e 0 := by omega
      simp [this]
  · intro r hr
    obtain ⟨hm, hmem, rfl⟩ := List.mem_map.mp hr
    by_cases hc : combineTime d hm.1 hm.2 + dur > combineTime d e 0
    · rw [if_pos hc]
      dsimp only
      intro hfit htouch
      exact absurd hfit (by omega)
    · rw [if_neg hc]
      dsimp only
      intro hfit htouch
      simp only [List.all_eq_true, Bool.not_eq_eq_eq_not, Bool.not_true, Bool.and_eq_false_iff,
        decide_eq_false_iff_not, not_lt, gt_iff_lt]
      intro a ha
      rcases htouch a ha with h1 | h1
      · right
        exact h1
      · left
        omega

/-- Witness for C3 at the spec's scenario: hours 10–12, 30-minute service:
slot `11:30` is available and slot `11:45` is not. -/
theorem get_available_slots_spec_witness :
    ∃ R, get_available_slots dbC3 0 30 1 = some R
      ∧ (11, 30, true) ∈ R ∧ (11, 45, false) ∈ R := by
  obtain ⟨R, h1, _, _, _, _⟩ :=
    get_available_slots_spec dbC3 0 30 1 10 12 (by decide) (by decide) (by decide) (by decide)
  have h2 : get_available_slots dbC3 0 30 1 =
      some [(10, 0, true), (10, 15, true), (10, 30, true), (10, 45, true),
            (11, 0, true), (11, 15, true), (11, 30, true), (11, 45, false)] := by
    decide
  rw [h1] at h2
  rw [h1, Option.some_inj.mp h2]
  decide

theorem chain'_lt_pairwise (f : α → Int) :
    ∀ (l : List α), List.Chain' (fun x y => f x < f y) l →
      l.Pairwise (fun x y => f x < f y) := by
  intro l
  induction l with
  | nil => intro _; simp
  | cons a l ih =>
    intro h
    rw [List.chain'_cons'] at h
    refine List.Pairwise.cons ?_ (ih h.2)
    cases l with
    | nil => intro b hb; simp at hb
    | cons c l2 =>
      have hac : f a < f c := h.1 c (by simp)
      have hp := ih h.2
      intro b hb
      rcases List.mem_cons.mp hb with rfl | hb2
      · exact hac
      · exact lt_trans hac ((List.pairwise_cons.mp hp).1 b hb2)

theorem scheduleWalk_eq_filterMap (db : Db) (all : List Appointment)
    (hall_sorted : all.Pairwise (fun x y => x.start_time < y.start_time)) :
    ∀ (ts : List Int) (pending : List Appointment) (done : List Appointment),
      ts.Pairwise (· < ·) →
      all = done ++ pending →
      (∀ a ∈ done, ∀ t ∈ ts, a.start_time < t) →
      (∀ a ∈ pending, a.start_time ∈ ts) →
      scheduleWalk db all ts pending = ts.filterMap (dailyItemSpec db all) := by
  intro ts
  induction ts with
  | nil =>
    intro pending done _ _ _ _
    cases pending <;> rfl
  | cons t rest ih =>
    intro pending done hts hall hdonelt hpend
    have htlt : ∀ t' ∈ rest, t < t' := (List.pairwise_cons.mp hts).1
    have hts' : rest.Pairwise (· < ·) := (List.pairwise_cons.mp hts).2
    have hfind_done : done.find? (fun x => x.start_time == t) = none := by
      rw [List.find?_eq_none]
      intro x hx
      have := hdonelt x hx t (List.mem_cons_self t rest)
      simp only [beq_iff_eq]
      omega
    have hpend_sorted : pending.Pairwise (fun x y => x.start_time < y.start_time) := by
      have := (List.pairwise_append.mp (hall ▸ hall_sorted)).2.1
      exact this
    cases pending with
    | nil =>
      have hfindall : all.find? (fun x => x.start_time == t) = none := by
        rw [hall, List.append_nil, hfind_done]
      simp only [scheduleWalk, dailyItemSpec, List.filterMap_cons, hfindall]
      have hrec := ih [] done hts' (by simpa using hall)
        (fun a ha t' ht' => hdonelt a ha t' (List.mem_cons_of_mem t ht'))
        (by simp)
      cases hocc : isOccupied all t <;> simp [hocc, hrec]
    | cons a ps =>
      have haps : ∀ b ∈ ps, a.start_time < b.start_time :=
        (List.pairwise_cons.mp hpend_sorted).1
      by_cases hstart : a.start_time = t
      · have hfindall : all.find? (fun x => x.start_time == t) = some a := by
          rw [hall, List.find?_append, hfind_done, Option.none_or]
          simp [List.find?_cons, hstart]
        simp only [scheduleWalk, if_pos hstart, dailyItemSpec, List.filterMap_cons, hfindall]
        have hrec := ih ps (done ++ [a]) hts'
          (by rw [hall, List.append_assoc]; rfl)
          (by intro x hx t' ht'
              rcases List.mem_append.mp hx with hx1 | hx1
              · exact lt_trans (hdonelt x hx1 t (List.mem_cons_self t rest)) (htlt t' ht')
              · have : x = a := by simpa using hx1
                subst this
                rw [hstart]
                exact htlt t' ht')
          (by intro b hb
              have hbt : t < b.start_time := hstart ▸ haps b hb
              have := hpend b (List.mem_cons_of_mem a hb)
              rcases List.mem_cons.mp this with h1 | h1
              · omega
              · exact h1)
        rw [hrec]
      · have hat : a.start_time ∈ rest := by
          rcases List.mem_cons.mp (hpend a (List.mem_cons_self a ps)) with h1 | h1
          · exact absurd h1 hstart
          · exact h1
        have hta : t < a.start_time := htlt _ hat
        have hfindall : all.find? (fun x => x.start_time == t) = none := by
          rw [hall, List.find?_append, hfind_done, Option.none_or, List.find?_eq_none]
          intro x hx
          simp only [beq_iff_eq]
          rcases List.mem_cons.mp hx with h1 | h1
          · subst h1; omega
          · have := haps x h1; omega
        have hpend' : ∀ b ∈ a :: ps, b.start_time ∈ rest := by
          intro b hb
          rcases List.mem_cons.mp hb with h1 | h1
          · subst h1; exact hat
          · have hbt : t < b.start_time := lt_trans hta (haps b h1)
            rcases List.mem_cons.mp (hpend b (List.mem_cons_of_mem a h1)) with h2 | h2
            · omega
            · exact h2
        have hrec := ih (a :: ps) done hts' hall
          (fun x hx t' ht' => hdonelt x hx t' (List.mem_cons_of_mem t ht'))
          hpend'
        simp only [scheduleWalk, if_neg hstart, dailyItemSpec, List.filterMap_cons, hfindall]
        cases hocc : isOccupied all t <;> simp [hocc, hrec]

/-- C7 (amended): whenever every fetched appointment starts exactly at one of
the generated slot times and no two fetched appointments share a start time,
the daily schedule is exactly the slot sequence mapped through the per-slot
description `dailyItemSpec` (appointment at its start slot, suppression
strictly inside a span, free otherwise), in slot order with at most one item
per slot. -/
theorem get_daily_schedule_spec (db : Db) (d : Int) (bid : Option Nat) (s e : Int)
    (hbh : get_business_hours db = some (s, e))
    (h0 : 0 ≤ s) (hse : s < e) (h23 : e ≤ 23)
    (hdist : (get_appointments_for_date db d bid).Pairwise
        (fun x y => x.start_time ≠ y.start_time))
    (halign : ∀ a ∈ get_appointments_for_date db d bid,
        a.start_time ∈ (slotsFor s e).map (fun hm => combineTime d hm.1 hm.2)) :
    get_daily_schedule db d bid =
      some (((slotsFor s e).map (fun hm => combineTime d hm.1 hm.2)).filterMap
        (dailyItemSpec db (get_appointments_for_date db d bid))) := by
  have hguard : (slotsFor s e).all (fun hm => validHour hm.1) = true := by
    rw [List.all_eq_true]
    intro hm hmem
    rw [slotsFor_eq_aux] at hmem
    have hb := mem_slotsForAux hmem
    have htn : ((e - s).toNat : Int) = e - s := Int.toNat_of_nonneg (by omega)
    simp only [validHour, Bool.and_eq_true, decide_eq_true_eq]
    omega
  have hts : ((slotsFor s e).map (fun hm => combineTime d hm.1 hm.2)).Pairwise (· < ·) := by
    rw [List.pairwise_map]
    have hchain : List.Chain' (fun x y => slotKey x < slotKey y) (slotsFor s e) := by
      rw [slotsFor_eq_aux]; exact slotsForAux_chain s (e - s).toNat
    have hpair : (slotsFor s e).Pairwise (fun x y => slotKey x < slotKey y) :=
      chain'_lt_pairwise slotKey (slotsFor s e) hchain
    refine hpair.imp ?_
    intro x y h
    simp only [combineTime, slotKey] at *
    omega
  have hsorted : (get_appointments_for_date db d bid).Pairwise
      (fun x y => x.start_time < y.start_time) := by
    have hle : (get_appointments_for_date db d bid).Pairwise
        (fun x y => (decide (x.start_time ≤ y.start_time)) = true) := by
      apply pairwise_sortBy
      · intro a b
        simp only [decide_eq_true_eq]
        omega
      · intro a b c
        simp only [decide_eq_true_eq]
        omega
    have := hle.and hdist
    refine this.imp ?_
    intro x y h
    have h1 := h.1
    simp only [decide_eq_true_eq] at h1
    have h2 := h.2
    omega
  have hwalk := scheduleWalk_eq_filterMap db (get_appointments_for_date db d bid) hsorted
    ((slotsFor s e).map (fun hm => combineTime d hm.1 hm.2))
    (get_appointments_for_date db d bid) [] hts rfl (by simp) halign
  simp only [get_daily_schedule, get_all_time_slots, hbh, Option.map_some']
  rw [if_pos hguard, hwalk]

/-- C7 counterexample: in both stores a fetched appointment starts exactly at
a generated slot (13:00 in the first, 12:15 in the second), yet the produced
schedule contains no appointment item at that slot — the single-index walk is
stuck behind a non-slot-aligned start (first store) or behind the second of
two equal starts (second store). -/
theorem get_daily_schedule_counterexample :
    ((get_appointments_for_date dbMisaligned 0 none).any
        (fun a => a.start_time == 780)) = true
    ∧ (get_daily_schedule dbMisaligned 0 none).map (fun L => L.any (fun i =>
        match i with
        | ScheduleItem.appointment t _ _ _ => t == 780
        | ScheduleItem.free _ => false)) = some false
    ∧ ((get_appointments_for_date dbDupStart 0 none).any
        (fun a => a.start_time == 735)) = true
    ∧ (get_daily_schedule dbDupStart 0 none).map (fun L => L.any (fun i =>
        match i with
        | ScheduleItem.appointment t _ _ _ => t == 735
        | ScheduleItem.free _ => false)) = some false := by
  decide

/-- Witness for C7: the amended theorem applied to the aligned store, plus
the concrete schedule it produces (the 12:45 slot inside the appointment's
span is suppressed and all other slots are free). -/
theorem get_daily_schedule_spec_witness :
    get_daily_schedule dbSchedW 0 (some 1) =
      some (((slotsFor 12 14).map (fun hm => combineTime 0 hm.1 hm.2)).filterMap
        (dailyItemSpec dbSchedW (get_appointments_for_date dbSchedW 0 (some 1))))
    ∧ (get_daily_schedule dbSchedW 0 (some 1)).map (fun L => L.map (fun i =>
        match i with
        | ScheduleItem.appointment t _ _ _ => (t, true)
        | ScheduleItem.free t => (t, false))) =
      some [(720, false), (735, false), (750, true), (780, false),
            (795, false), (810, false), (825, false)] := by
  refine ⟨?_, by decide⟩
  exact get_daily_schedule_spec dbSchedW 0 (some 1) 12 14 (by decide) (by decide)
    (by decide) (by decide) (by decide) (by decide)

end BarberManager
